import Mathlib

/-!
Verification development for the golf-tracking round-completion and
insights-generation pipeline.

The definitions below are a shallow embedding of two source components:

* `src/services/roundservice.js` — `createRound` / `deleteAbandonedRound` /
  `completeRound`, operating on the Supabase tables `rounds`, `courses`,
  `shots` (hole records keyed by `round_id, hole_number`), and triggering
  the insights edge function as a fire-and-forget side effect;
* `oldfunctionclaude.ts` — the `analyze-golf-performance` edge function:
  identity resolution, entitlement check, round/shot aggregation, the
  external generation-API call, JSON extraction from the model response,
  and the response transformation (premium vs. conversion shapes).

The database is modelled as lists of rows; Supabase calls that can fail
for transport reasons are driven by explicit failure flags in an
environment record.  JavaScript falsiness (`x || d`) on strings and
numbers is modelled by dedicated helpers (`jsOrStr`, `jsParDefault`, ...),
since `0`, `""`, `null` and `undefined` are all falsy in the source.
-/

/-- JS `x || d` for an optional string: `null`/`undefined` and `""` are falsy. -/
def jsOrStrOpt (x : Option String) (d : String) : String :=
  match x with
  | none => d
  | some s => if s = "" then d else s

/-- JS `x || d` for a present string: `""` is falsy. -/
def jsOrStr (x : String) (d : String) : String :=
  if x = "" then d else x

/-- JS truthiness filter for an optional string (`x || null`): `""` becomes `null`. -/
def jsTruthyStr (x : Option String) : Option String :=
  match x with
  | none => none
  | some s => if s = "" then none else some s

/-- JS `par || 72` on a nullable numeric column: `null`, `undefined` and `0`
are all falsy, so a stored par of `0` also falls back to `72`.  Used both by
`completeRound` (`courseData.par || 72`) and by the edge function
(`round.courses?.par || 72`). -/
def jsParDefault (par : Option Int) : Int :=
  match par with
  | none => 72
  | some p => if p = 0 then 72 else p

/-- The default rule exactly as the specification words it: 72 exactly when the
course's par is `null`/`undefined`, the stored value otherwise.  Kept separate
from `jsParDefault` (the code's `par || 72`) for refinement comparison. -/
def specCoursePar (par : Option Int) : Int :=
  match par with
  | none => 72
  | some p => p

/-- JS `x || d` for a nullable number used as `holeData.par || null` etc.:
`0` collapses to `null`. -/
def jsOrNullInt (x : Option Int) : Option Int :=
  match x with
  | none => none
  | some v => if v = 0 then none else some v

/-- One swing inside a hole's `shots` array: shot type, qualitative result,
optional timestamp (epoch milliseconds; the source stores a date string and
converts with `new Date(...).getTime()`, modelled here directly as the
converted number). -/
structure Shot where
  type : String
  result : String
  timestamp : Option Nat
deriving DecidableEq, Repr

/-- The `hole_data` JSONB payload: the six fields copied by `completeRound`
into `holeDataForDb` (`par`, `distance`, `index`, `features`, `shots`, `poi`).
`shots` is optional because the edge function guards against records whose
`hole_data.shots` is missing.  The `poi` payload is passed through opaquely
and modelled as a string. -/
structure HoleData where
  par : Option Int
  distance : Option Int
  index : Option Int
  features : Option (List String)
  shots : Option (List Shot)
  poi : Option String
deriving DecidableEq, Repr

/-- A row of the `rounds` table. -/
structure RoundRow where
  id : String
  profile_id : String
  course_id : String
  selected_tee_name : Option String
  is_complete : Bool
  gross_shots : Option Int
  score : Option Int
  created_at : Nat
deriving DecidableEq, Repr

/-- A row of the `shots` table (one hole record, upsert key `round_id, hole_number`).
`hole_data = none` models a missing/malformed JSONB payload. -/
structure ShotRow where
  round_id : String
  hole_number : Nat
  hole_data : Option HoleData
  total_score : Int
deriving DecidableEq, Repr

/-- A row of the `courses` table (the columns the pipeline selects). -/
structure CourseRow where
  id : String
  name : Option String
  par : Option Int
  club_name : Option String
  location : Option String
  country : Option String
  holes : Option (List String)
deriving DecidableEq, Repr

/-- A row of the `user_permissions` table. -/
structure PermRow where
  profile_id : String
  permission_id : String
  active : Bool
deriving DecidableEq, Repr

/-- A row of the `profiles` table (the columns the edge function selects). -/
structure ProfileRow where
  id : String
  handicap : Option Int
  first_name : Option String
deriving DecidableEq, Repr

section CompleteRound

/-- Outcome of the fire-and-forget insights invocation, as observed by the
`.then`/`.catch` continuation attached in `completeRound` step 6. -/
inductive InsightOutcome where
  | ok
  | errResult (msg : String)
  | exn (msg : String)
deriving DecidableEq, Repr

/-- Transport-level failure injection for the Supabase calls made by
`completeRound`.  `dbErrMsg` is the message carried by the injected store
error (`error.message` in the source). -/
structure FinFlags where
  roundFetchFails : Bool
  courseFetchFails : Bool
  upsertFails : Nat → Bool
  updateFails : Bool
  dbErrMsg : String

/-- Environment of one `completeRound` invocation: store-failure flags plus
the (asynchronous, unobserved-by-the-caller) outcome of the triggered
insights edge function. -/
structure FinEnv where
  flags : FinFlags
  insightOutcome : InsightOutcome

/-- Value produced by `completeRound`: either the updated round rows returned
by `update(...).select()` or the thrown error's message. -/
inductive FinResult where
  | ok (rows : List RoundRow)
  | err (msg : String)
deriving DecidableEq, Repr

/-- `completeRound`'s skip condition for a hole:
`!storedHoleData[holeNum] || !storedHoleData[holeNum].shots || shots.length === 0`. -/
def hasShotData (stored : Nat → Option HoleData) (n : Nat) : Bool :=
  match stored n with
  | none => false
  | some h =>
    match h.shots with
    | none => false
    | some [] => false
    | some (_ :: _) => true

/-- The per-hole `totalScore` (`holeInfo.shots.length`; `0` when absent,
which cannot occur for a hole passing `hasShotData`). -/
def shotsLenOf (h : HoleData) : Nat :=
  (h.shots.getD []).length

/-- The `holeDataForDb` object built by `completeRound` — the six copied
fields; with `HoleData` holding exactly those fields this is the identity
copy. -/
def mkHoleDataForDb (h : HoleData) : HoleData :=
  { par := h.par, distance := h.distance, index := h.index,
    features := h.features, shots := h.shots, poi := h.poi }

/-- The hole record upserted for hole `n` of round `rid`. -/
def mkShotRow (rid : String) (n : Nat) (h : HoleData) : ShotRow :=
  { round_id := rid, hole_number := n,
    hole_data := some (mkHoleDataForDb h),
    total_score := (shotsLenOf h : Int) }

/-- Whether a `shots`-table row carries the upsert conflict key
`(round_id, hole_number)`. -/
def keyMatch (rid : String) (n : Nat) (x : ShotRow) : Bool :=
  decide (x.round_id = rid ∧ x.hole_number = n)

/-- Supabase upsert with `onConflict: 'round_id,hole_number'`: replace the
row(s) with the same conflict key, append otherwise. -/
def upsertShot (l : List ShotRow) (r : ShotRow) : List ShotRow :=
  if l.any (keyMatch r.round_id r.hole_number) then
    l.map (fun x => if keyMatch r.round_id r.hole_number x then r else x)
  else
    l ++ [r]

/-- The rows of a `shots` list holding a given conflict key. -/
def holeRows (l : List ShotRow) (rid : String) (n : Nat) : List ShotRow :=
  l.filter (keyMatch rid n)

/-- `storedHoleData[holeNum]` for a hole known to have data (the default is
never reached for holes passing `hasShotData`). -/
def getHole (stored : Nat → Option HoleData) (n : Nat) : HoleData :=
  (stored n).getD ⟨none, none, none, none, none, none⟩

/-- The hole-writing loop of `completeRound` (step 3): holes are processed in
ascending order, holes without shot data are skipped, the first failing upsert
aborts the loop reporting its hole number, and `grossShots` accumulates the
per-hole shot counts of the successfully written holes. -/
def processHoles (flags : FinFlags) (rid : String) (stored : Nat → Option HoleData) :
    List Nat → List ShotRow → Nat → List ShotRow × Nat × Option Nat
  | [], shots, gross => (shots, gross, none)
  | n :: rest, shots, gross =>
    if hasShotData stored n then
      if flags.upsertFails n then
        (shots, gross, some n)
      else
        processHoles flags rid stored rest
          (upsertShot shots (mkShotRow rid n (getHole stored n)))
          (gross + shotsLenOf (getHole stored n))
    else
      processHoles flags rid stored rest shots gross

/-- The `shots`-table contents produced by the hole-writing loop when no
write fails: the fold of the per-hole upserts. -/
def phShots (rid : String) (stored : Nat → Option HoleData) :
    List Nat → List ShotRow → List ShotRow
  | [], cur => cur
  | n :: rest, cur =>
    if hasShotData stored n then
      phShots rid stored rest (upsertShot cur (mkShotRow rid n (getHole stored n)))
    else
      phShots rid stored rest cur

/-- Total gross shots contributed by the holes of `L` that carry data. -/
def sumShots (stored : Nat → Option HoleData) : List Nat → Nat
  | [] => 0
  | n :: rest =>
    (if hasShotData stored n then shotsLenOf (getHole stored n) else 0) +
      sumShots stored rest

/-- The hole numbers visited by the loop: `1, 2, ..., totalHoles`. -/
def holeRange (totalHoles : Nat) : List Nat :=
  List.range' 1 totalHoles

/-- The error message thrown when saving hole `n` fails: the inner
`Failed to save hole N data:` wrap plus the outer
`Failed to save data for hole N:` wrap. -/
def holeFailMsg (n : Nat) (dbMsg : String) : String :=
  "Failed to save data for hole " ++ toString n ++
    ": Failed to save hole " ++ toString n ++ " data: " ++ dbMsg

end CompleteRound

/-- A stored insight record (`insights` table row). -/
structure InsightRow (payload : Type) where
  id : String
  profile_id : String
  round_id : Option String
  insights : payload
  created_at : String
deriving DecidableEq, Repr

/-- Placeholder for the insight payload type, refined below. -/
inductive InsightPayloadStub where
  | stub
deriving DecidableEq, Repr

/-- The persistent store shared by both components. -/
structure Store (payload : Type) where
  rounds : List RoundRow
  courses : List CourseRow
  shots : List ShotRow
  user_permissions : List PermRow
  profiles : List ProfileRow
  insights : List (InsightRow payload)
deriving DecidableEq

section Finalizer

variable {P : Type}

/-- Everything `completeRound` produces: the store after its writes, the
value returned (or error thrown) to the caller, the edge-function invocations
it dispatched, and the console line logged by the fire-and-forget
continuation (the only place the insight outcome is observable). -/
structure FinOutcome (P : Type) where
  store : Store P
  result : FinResult
  invoked : List (String × String)
  asyncLog : List String

/-- The console line produced by the `.then`/`.catch` continuation of the
insights invocation. -/
def insightLogLine (o : InsightOutcome) : String :=
  match o with
  | .ok => "[completeRound] Insights generated successfully"
  | .errResult m => "[completeRound] Error from insights Edge Function: " ++ m
  | .exn m => "[completeRound] Exception calling insights Edge Function: " ++ m

/-- The single round update of step 5: set the completion flag, gross shots
and score together on the row(s) with the given id. -/
def scoreUpdate (rid : String) (gross : Nat) (score : Int) (r : RoundRow) : RoundRow :=
  if r.id = rid then
    { r with is_complete := true,
             gross_shots := some (gross : Int),
             score := some score }
  else r

/-- Steps 1–6 of `completeRound` (`roundservice.js`): fetch the round row,
fetch the course par, write each hole with data (aborting on the first
failure), compute `score = grossShots - coursePar`, and mark the round
complete in a single update.  The insight trigger (step 6 of the source,
modelled in `completeRound` below) does not touch the store.  Supabase
`.single()` fetch errors and transport failures share the injected
`dbErrMsg`. -/
def completeRoundCore (flags : FinFlags) (store : Store P) (rid : String)
    (stored : Nat → Option HoleData) (totalHoles : Nat) :
    Store P × FinResult × List (String × String) :=
  if flags.roundFetchFails then
    (store, .err ("Failed to fetch round information: Failed to fetch round data: "
      ++ flags.dbErrMsg), [])
  else
    match store.rounds.find? (fun r => r.id = rid) with
    | none =>
      (store, .err ("Failed to fetch round information: Failed to fetch round data: "
        ++ flags.dbErrMsg), [])
    | some roundRow =>
      if flags.courseFetchFails then
        (store, .err ("Failed to fetch course information: Failed to fetch course data: "
          ++ flags.dbErrMsg), [])
      else
        match store.courses.find? (fun c => c.id = roundRow.course_id) with
        | none =>
          (store, .err ("Failed to fetch course information: Failed to fetch course data: "
            ++ flags.dbErrMsg), [])
        | some courseRow =>
          let coursePar := jsParDefault courseRow.par
          match processHoles flags rid stored (holeRange totalHoles) store.shots 0 with
          | (shotsAcc, _, some n) =>
            ({ store with shots := shotsAcc }, .err (holeFailMsg n flags.dbErrMsg), [])
          | (shotsAcc, gross, none) =>
            let score : Int := (gross : Int) - coursePar
            if flags.updateFails then
              ({ store with shots := shotsAcc },
                .err ("Failed to finalize round: Failed to complete round: "
                  ++ flags.dbErrMsg), [])
            else
              let newRounds := store.rounds.map (scoreUpdate rid gross score)
              ({ store with shots := shotsAcc, rounds := newRounds },
                .ok (newRounds.filter (fun r => r.id = rid)),
                [(roundRow.profile_id, rid)])

/-- `completeRound(round_id, storedHoleData, totalHoles = 18)`: steps 1–6
plus the fire-and-forget insights trigger whose outcome is only ever logged
by the attached continuation. -/
def completeRound (env : FinEnv) (store : Store P) (rid : String)
    (stored : Nat → Option HoleData) (totalHoles : Nat) : FinOutcome P :=
  let core := completeRoundCore env.flags store rid stored totalHoles
  { store := core.1
    result := core.2.1
    invoked := core.2.2
    asyncLog :=
      match core.2.2 with
      | [] => []
      | _ :: _ => [insightLogLine env.insightOutcome] }

/-- `deleteAbandonedRound(round_id)`: deletes only rows matching both
`id = round_id` and `is_complete = false`; a store error (or exception)
leaves the store unchanged and returns `false`. -/
def deleteAbandonedRound (deleteFails : Bool) (store : Store P) (rid : String) :
    Store P × Bool :=
  if deleteFails then (store, false)
  else
    ({ store with rounds :=
        store.rounds.filter (fun r => ¬(r.id = rid ∧ r.is_complete = false)) },
      true)

end Finalizer

section Generator

/-- JS whitespace (`\s`) for the regex fence trimming: space, tab, newline,
carriage return, vertical tab, form feed (unicode spaces are not modelled). -/
def isWsChar (c : Char) : Bool :=
  c = ' ' || c = '\t' || c = '\n' || c = '\r' || c = Char.ofNat 11 || c = Char.ofNat 12

/-- Strip leading and trailing whitespace, as the greedy `\s*` on either side
of the lazy capture group does. -/
def trimWsChars (l : List Char) : List Char :=
  ((l.dropWhile isWsChar).reverse.dropWhile isWsChar).reverse

/-- If `pat` is a prefix of `s`, return the remainder of `s`. -/
def matchStart : List Char → List Char → Option (List Char)
  | [], s => some s
  | _ :: _, [] => none
  | p :: ps, c :: cs => if p = c then matchStart ps cs else none

/-- Content of `s` strictly before the first occurrence of `pat`
(`none` when `pat` does not occur). -/
def upToSeq (pat : List Char) : List Char → Option (List Char)
  | [] => if pat.isEmpty then some [] else none
  | c :: cs =>
    if (matchStart pat (c :: cs)).isSome then some []
    else (upToSeq pat cs).map (fun r => c :: r)

/-- Leftmost match of `opn ... ``` ` with lazy content: scan positions left to
right, at each occurrence of `opn` look for a closing fence after it; the
first position with a closing fence wins, and the captured content is the
text between, trimmed of surrounding whitespace (the regex
`opn\s*([\s\S]*?)\s*``` `). -/
def findFencedBlock (opn : List Char) : List Char → Option (List Char)
  | [] => none
  | c :: cs =>
    match matchStart opn (c :: cs) with
    | some rest =>
      match upToSeq ("```".toList) rest with
      | some content => some (trimWsChars content)
      | none => findFencedBlock opn cs
    | none => findFencedBlock opn cs

/-- First regex attempt: `/```json\s*([\s\S]*?)\s*```/`. -/
def findFencedLang (msg : String) : Option String :=
  (findFencedBlock ("```json".toList) msg.toList).map (fun l => String.mk l)

/-- Second regex attempt: `/```\s*([\s\S]*?)\s*```/`. -/
def findFenced (msg : String) : Option String :=
  (findFencedBlock ("```".toList) msg.toList).map (fun l => String.mk l)

/-- The string handed to `JSON.parse`: the fenced-with-language capture if
that regex matched, else the fenced-without-language capture if that one
matched, else the raw message; an empty capture group falls back to the raw
message (`jsonMatch[1] || claudeMessage`). -/
def extractJsonCandidate (msg : String) : String :=
  let g :=
    match findFencedLang msg with
    | some c => c
    | none =>
      match findFenced msg with
      | some c => c
      | none => msg
  if g = "" then msg else g

/-- The `icon` object of a parsed card. -/
structure IconSpec where
  name : Option String
  color : Option String
deriving DecidableEq, Repr

/-- One card of the JSON contract parsed out of the model response. -/
structure Card where
  id : String
  title : String
  content : String
  type : String
  priority : Int
  icon : Option IconSpec
  variant : Option String
  cta_text : Option String
deriving DecidableEq, Repr

/-- The parsed model response (`insightsJSON`): the `cards` field may be
absent. -/
structure ParsedInsights where
  cards : Option (List Card)
deriving DecidableEq, Repr

/-- `mapCardVariantToUi`: the fixed whitelist; unknown or absent variants map
to `"standard"`. -/
def variantMap : List (String × String) :=
  [("filled", "highlight"), ("outlined", "standard"), ("alert", "alert"),
   ("success", "success"), ("highlight", "highlight"), ("standard", "standard")]

/-- `mapCardVariantToUi(variant)` — `variantMap[variant] || "standard"`. -/
def mapCardVariantToUi (variant : Option String) : String :=
  match variant with
  | none => "standard"
  | some v =>
    match variantMap.find? (fun p => p.1 = v) with
    | some p => p.2
    | none => "standard"

/-- A premium-branch tiered insight card. -/
structure PremiumCard where
  id : String
  title : String
  content : String
  iconName : String
  variant : String
deriving DecidableEq, Repr

/-- A conversion-branch tiered insight card, carrying the PremiumButton
integration fields. -/
structure ConvCard where
  id : String
  title : String
  content : String
  iconName : String
  variant : String
  usePremiumButton : Bool
  productId : Option String
  ctaText : Option String
deriving DecidableEq, Repr

/-- Premium transformation of one card. -/
def premiumCardOf (c : Card) : PremiumCard :=
  { id := c.id, title := c.title, content := c.content,
    iconName := jsOrStrOpt (c.icon.bind (fun i => i.name)) "analytics-outline",
    variant := mapCardVariantToUi c.variant }

/-- Conversion transformation of one card: the PremiumButton affordances are
attached exactly when the card's type is `"premium-feature"`. -/
def convCardOf (c : Card) : ConvCard :=
  { id := c.id, title := c.title, content := c.content,
    iconName := jsOrStrOpt (c.icon.bind (fun i => i.name)) "analytics-outline",
    variant := mapCardVariantToUi c.variant,
    usePremiumButton := c.type = "premium-feature",
    productId := if c.type = "premium-feature" then some "product_a" else none,
    ctaText :=
      if c.type = "premium-feature" then
        some (jsOrStrOpt c.cta_text "Unlock Premium Insights")
      else none }

/-- `matchingCards.sort((a, b) => a.priority - b.priority)[0]`: the earliest
card of minimal priority (stable sort, first element). -/
def minPriorityCard (c : Card) (rest : List Card) : Card :=
  rest.foldl (fun best x => if x.priority < best.priority then x else best) c

/-- Legacy-field selection: the content of the earliest minimal-priority card
of the given type, when one exists. -/
def legacyField (cards : List Card) (ty : String) : Option String :=
  match cards.filter (fun c => c.type = ty) with
  | [] => none
  | c :: rest => some ((minPriorityCard c rest).content)

/-- The `completeInsights` object: one of the three shapes built by the edge
function (premium transformation, conversion transformation, or the
JSON-parse fallback). -/
inductive CompleteInsights where
  | premium (summary : String) (tieredInsights : List PremiumCard)
      (primaryIssue : Option String) (reason : Option String)
      (practiceFocus : Option String) (managementTip : Option String)
      (progress : Option String)
      (analyzedRounds : List String) (generatedAt : String)
      (productAccess : Option String)
  | conversion (summary : String) (tieredInsights : List ConvCard)
      (primaryIssue : String) (reason : String)
      (practiceFocus : String) (managementTip : String)
      (progress : String)
      (analyzedRounds : List String) (generatedAt : String)
      (productAccess : Option String)
  | fallback (error : String) (rawResponse : String)
      (analyzedRounds : List String) (generatedAt : String)
      (productAccess : Option String)
deriving DecidableEq, Repr

/-- The premium response transformation (`hasProductA` branch of the parse
`try` block). -/
def premiumFormat (cards : Option (List Card)) (roundIds : List String)
    (now : String) : CompleteInsights :=
  let dflt := "Analysis is being generated based on your recent play."
  let summary :=
    match cards with
    | some (c :: _) => jsOrStr c.content dflt
    | _ => dflt
  let tiered := (cards.getD []).map premiumCardOf
  match cards with
  | some (c :: cs) =>
    .premium summary tiered
      (legacyField (c :: cs) "sequence") (legacyField (c :: cs) "pattern")
      (legacyField (c :: cs) "spatial") (legacyField (c :: cs) "temporal")
      (some "null") roundIds now (some "product_a")
  | _ =>
    .premium summary tiered none none none none none roundIds now (some "product_a")

/-- The conversion response transformation (non-`hasProductA` branch): note
the stored payload's `analyzedRounds` is `roundIds.slice(0, 1)`. -/
def conversionFormat (cards : Option (List Card)) (roundIds : List String)
    (now : String) : CompleteInsights :=
  let dflt := "Complete a round to get basic insights about your game."
  let summary :=
    match (cards.getD []).find? (fun c => c.type = "summary") with
    | some c => jsOrStr c.content dflt
    | none => dflt
  let tiered := (cards.getD []).map convCardOf
  .conversion summary tiered
    "Upgrade to premium insights to receive detailed analysis of your primary technical issues."
    "Premium insights include root cause analysis based on comprehensive shot pattern detection."
    "Unlock premium insights for personalized practice recommendations tailored to your game."
    "Premium insights include course management strategies designed for your playing style."
    "null"
    (roundIds.take 1) now none

/-- The whole parse-and-transform `try`/`catch`: extract a JSON candidate from
the response text, parse it, transform per entitlement; a parse failure
produces the fallback payload (raw text plus error marker) instead of
throwing. -/
def buildCompleteInsights (parse : String → Option ParsedInsights) (msg : String)
    (hasProductA : Bool) (roundIds : List String) (now : String) : CompleteInsights :=
  match parse (extractJsonCandidate msg) with
  | none =>
    .fallback "Failed to parse as JSON" msg roundIds now
      (if hasProductA then some "product_a" else none)
  | some pj =>
    if hasProductA then premiumFormat pj.cards roundIds now
    else conversionFormat pj.cards roundIds now

end Generator

section HandlerModel

/-- The fixed shot-type taxonomy of the aggregate view. -/
def shotTypes : List String :=
  ["Tee Shot", "Long Shot", "Approach", "Chip", "Putts", "Sand", "Penalties"]

/-- The fixed qualitative results. -/
def shotResults : List String :=
  ["On Target", "Slightly Off", "Recovery Needed"]

/-- Number of shots of a given type and result; the incremental
`shotCounts[shot.type][shot.result]++` over all valid holes counts exactly
these (unrecognized type/result pairs are only warned about). -/
def countShotsTR (shots : List Shot) (t r : String) : Nat :=
  (shots.filter (fun s => s.type = t ∧ s.result = r)).length

/-- The 7×3 `shotCounts` matrix. -/
def shotCountsOf (shots : List Shot) : List (String × List (String × Nat)) :=
  shotTypes.map (fun t => (t, shotResults.map (fun r => (r, countShotsTR shots t r))))

/-- Minimum of a non-empty timestamp list (`Math.min(...holeTimestamps)`). -/
def natListMin : List Nat → Option Nat
  | [] => none
  | x :: xs => some (xs.foldl Nat.min x)

/-- Maximum of a non-empty timestamp list (`Math.max(...holeTimestamps)`). -/
def natListMax : List Nat → Option Nat
  | [] => none
  | x :: xs => some (xs.foldl Nat.max x)

/-- `holeTimeInfo`: derived timing for one hole.  `duration` is
`(max - min) / 1000 / 60` (the JS float division is modelled as truncating
natural division; no claim depends on timing). -/
structure HoleTimeInfo where
  startTime : Option Nat
  endTime : Option Nat
  duration : Option Nat
  sequenceInRound : Nat
deriving DecidableEq, Repr

/-- One entry of `holeDetails`. -/
structure HoleDetail where
  holeNumber : Nat
  par : Option Int
  distance : Option Int
  index : Option Int
  features : List String
  totalShots : Int
  shots : List Shot
  timeInfo : HoleTimeInfo
  poi : Option String
deriving DecidableEq, Repr

/-- `hole.total_score || holeData.shots.length` — a zero stored total falls
back to the shot-list length. -/
def jsOrTotal (totalScore : Int) (len : Nat) : Int :=
  if totalScore = 0 then (len : Int) else totalScore

/-- Build one `holeDetails` entry from a hole record with well-formed
`hole_data` and its shot list. -/
def mkHoleDetail (h : ShotRow) (hd : HoleData) (s : List Shot) : HoleDetail :=
  let ts := s.filterMap (fun sh => sh.timestamp)
  { holeNumber := h.hole_number
    par := jsOrNullInt hd.par
    distance := jsOrNullInt hd.distance
    index := jsOrNullInt hd.index
    features := hd.features.getD []
    totalShots := jsOrTotal h.total_score s.length
    shots := s
    timeInfo :=
      { startTime := natListMin ts
        endTime := natListMax ts
        duration :=
          match natListMin ts, natListMax ts with
          | some mn, some mx => if ts.length ≥ 2 then some ((mx - mn) / 1000 / 60) else none
          | _, _ => none
        sequenceInRound := h.hole_number }
    poi := jsTruthyStr hd.poi }

/-- `courseInfo` of a processed round. -/
structure CourseInfo where
  name : String
  clubName : Option String
  location : Option String
  country : Option String
  holes : Option (List String)
deriving DecidableEq, Repr

/-- One element of `processedRounds`.  The locale-rendered `date`/`time`
strings of the source are presentation-only and are not modelled; `timestamp`
is `new Date(round.created_at).getTime()`. -/
structure ProcessedRound where
  roundId : String
  timestamp : Nat
  totalScore : Option Int
  par : Int
  teeName : String
  shots : List (String × List (String × Nat))
  holeDetails : List HoleDetail
  courseName : String
  courseInfo : CourseInfo
deriving DecidableEq, Repr

/-- `processedRounds` entry for one fetched round: tally the 7×3 shot matrix
over the round's well-formed hole records, build the ordered hole detail list,
and attach the joined course context. -/
def processRound (courses : List CourseRow) (allHoleData : List ShotRow)
    (round : RoundRow) : ProcessedRound :=
  let course := courses.find? (fun c => c.id = round.course_id)
  let roundHoles := allHoleData.filter (fun h => h.round_id = round.id)
  let validHoles := roundHoles.filterMap (fun h =>
    match h.hole_data with
    | some hd =>
      match hd.shots with
      | some s => some (h, hd, s)
      | none => none
    | none => none)
  let allShots := (validHoles.map (fun t => t.2.2)).flatten
  { roundId := round.id
    timestamp := round.created_at
    totalScore := round.gross_shots
    par := jsParDefault (course.bind (fun c => c.par))
    teeName := jsOrStrOpt round.selected_tee_name "Unknown"
    shots := shotCountsOf allShots
    holeDetails := validHoles.map (fun t => mkHoleDetail t.1 t.2.1 t.2.2)
    courseName := jsOrStrOpt (course.bind (fun c => c.name)) "Unknown Course"
    courseInfo :=
      { name := jsOrStrOpt (course.bind (fun c => c.name)) "Unknown Course"
        clubName := jsTruthyStr (course.bind (fun c => c.club_name))
        location := jsTruthyStr (course.bind (fun c => c.location))
        country := jsTruthyStr (course.bind (fun c => c.country))
        holes := course.bind (fun c => c.holes) } }

/-- Insert a round into a list sorted by `created_at` descending. -/
def insertByCreatedDesc (r : RoundRow) : List RoundRow → List RoundRow
  | [] => [r]
  | x :: xs =>
    if r.created_at ≤ x.created_at then x :: insertByCreatedDesc r xs
    else r :: x :: xs

/-- `order("created_at", { ascending: false })` — newest first. -/
def sortByCreatedDesc : List RoundRow → List RoundRow
  | [] => []
  | x :: xs => insertByCreatedDesc x (sortByCreatedDesc xs)

/-- The completed rounds of a profile (the rounds query's filters). -/
def completedRoundsOf (rounds : List RoundRow) (userId : String) : List RoundRow :=
  rounds.filter (fun r => r.profile_id = userId ∧ r.is_complete = true)

/-- The rounds query: the profile's completed rounds, newest first,
`limit(5)`. -/
def fetchedRounds (rounds : List RoundRow) (userId : String) : List RoundRow :=
  (sortByCreatedDesc (completedRoundsOf rounds userId)).take 5

/-- Outcome of `supabase.auth.getUser(token)`: an error result, a user, a
`null` user with no error, or a thrown exception. -/
inductive AuthOutcome where
  | err (msg : String)
  | okUser (uid : String)
  | okNoUser
  | exn (msg : String)
deriving DecidableEq, Repr

/-- Environment of one edge-function invocation: environment variables,
request fields, outcomes of the external calls (auth lookup, generation API),
transport-failure flags for the store reads, the JSON parser, the id assigned
by a successful insights insert (`none` = insert error), and the clock. -/
structure GenEnv where
  claudeKeyPresent : Bool
  supabaseUrlPresent : Bool
  serviceRoleKeyPresent : Bool
  authHeader : Option String
  bodyUserId : Option String
  bodyRoundId : Option String
  authResult : AuthOutcome
  profileFails : Bool
  permsFails : Bool
  roundsFails : Bool
  shotsFails : Bool
  claudeOutcome : Except Nat String
  parseJson : String → Option ParsedInsights
  insertResult : Option String
  now : String

/-- Caller-identity resolution: with an `Authorization` header, a token error
or exception falls back to the request body's `userId`, a resolved user wins,
and a `null` user with no error leaves `userId` undefined (no fallback);
without a header, the body's `userId` is used. -/
def resolveUserId (env : GenEnv) : Option String :=
  match env.authHeader with
  | none => env.bodyUserId
  | some _ =>
    match env.authResult with
    | .err _ => env.bodyUserId
    | .exn _ => env.bodyUserId
    | .okUser uid => some uid
    | .okNoUser => none

/-- The message of the error thrown when no user id could be resolved. -/
def authErrorMsg : String :=
  "Unable to determine user ID. Please ensure you're logged in."

/-- Step 2: best-effort handicap lookup (`.single()` on `profiles`); failure
or absence leaves the handicap `null`.  The value flows only into the prompt
text, which is not modelled further. -/
def userHandicapOf (profileFails : Bool) (profiles : List ProfileRow)
    (userId : String) : Option Int :=
  if profileFails then none
  else (profiles.find? (fun p => p.id = userId)).bind (fun p => p.handicap)

/-- The `product_a` permission check: fail-closed — a query error (or
exception) yields `false`, otherwise at least one active matching row is
required. -/
def computeHasProductA (permsFails : Bool) (perms : List PermRow)
    (userId : String) : Bool :=
  if permsFails then false
  else
    !(perms.filter (fun p =>
      p.profile_id = userId ∧ p.permission_id = "product_a" ∧ p.active = true)).isEmpty

/-- The final `golfData` object (the pre-bifurcation assignment at the top of
the branch is immediately overwritten by the per-branch assignments and is
therefore not modelled). -/
structure GolfData where
  rounds : List ProcessedRound
  totalRounds : Nat
  limitedData : Bool
deriving DecidableEq, Repr

/-- The generation-API request: model id, token budget, which prompt variant
was used (the prompt literals are presentation text and are not reproduced),
and the JSON-serialized golf data appended to the prompt. -/
structure ClaudeRequest where
  model : String
  max_tokens : Nat
  premiumPrompt : Bool
  golfData : GolfData
deriving DecidableEq, Repr

/-- The JSON body of a successful (HTTP 200) edge-function response. -/
structure SuccessBody where
  message : String
  insights : CompleteInsights
  insightsId : Option String
  analyzedRounds : List String
  timestamp : String
  productAccess : Option String
deriving DecidableEq, Repr

/-- An edge-function response: 200 with the success body, or an error status
with the thrown error's message. -/
inductive HandlerResp where
  | ok (body : SuccessBody)
  | err (status : Nat) (msg : String)
deriving DecidableEq, Repr

/-- The store instantiated with the insight-payload type. -/
abbrev GStore := Store CompleteInsights

/-- Everything one edge-function invocation produces: the response, the store
after its (at most one) insert, and the generation-API request it sent, when
it got that far. -/
structure GenOutcome where
  resp : HandlerResp
  store : GStore
  request : Option ClaudeRequest

/-- The serve handler of `oldfunctionclaude.ts` (non-OPTIONS path): key
checks, identity resolution, entitlement check, rounds/shots fetch,
aggregation, entitlement bifurcation of data volume and token budget, the
generation call, response parsing/transformation, best-effort insert, and the
response body. -/
def runHandler (env : GenEnv) (store : GStore) : GenOutcome :=
  if env.claudeKeyPresent = false then
    ⟨.err 500 "Missing CLAUDE_API_KEY environment variable", store, none⟩
  else if env.supabaseUrlPresent = false ∨ env.serviceRoleKeyPresent = false then
    ⟨.err 500 "Missing Supabase credentials in environment variables", store, none⟩
  else
    match jsTruthyStr (resolveUserId env) with
    | none => ⟨.err 500 authErrorMsg, store, none⟩
    | some userId =>
      let hasProductA := computeHasProductA env.permsFails store.user_permissions userId
      let triggeringRoundId := jsTruthyStr env.bodyRoundId
      if env.roundsFails then
        ⟨.err 500 "Could not retrieve your recent rounds data", store, none⟩
      else
        let roundsData := fetchedRounds store.rounds userId
        if roundsData.isEmpty then
          ⟨.err 500 "No completed rounds found. Please complete a round first.", store, none⟩
        else
          let roundIds := roundsData.map (fun r => r.id)
          if env.shotsFails then
            ⟨.err 500 "Could not retrieve shot data for your rounds", store, none⟩
          else
            let allHoleData := store.shots.filter (fun h => roundIds.contains h.round_id)
            let processedRounds := roundsData.map (fun r =>
              processRound store.courses allHoleData r)
            let golfData : GolfData :=
              if hasProductA then ⟨processedRounds, processedRounds.length, false⟩
              else ⟨processedRounds.take 1, (processedRounds.take 1).length, true⟩
            let maxTokens := if hasProductA then 10000 else 4000
            let request : ClaudeRequest :=
              ⟨"claude-sonnet-4-20250514", maxTokens, hasProductA, golfData⟩
            match env.claudeOutcome with
            | .error status =>
              ⟨.err 500 ("Claude API error: " ++ toString status), store, some request⟩
            | .ok claudeMessage =>
              let completeInsights :=
                buildCompleteInsights env.parseJson claudeMessage hasProductA roundIds env.now
              let body : Option String → SuccessBody := fun storedId =>
                { message := "Golf insights generated successfully"
                  insights := completeInsights
                  insightsId := storedId
                  analyzedRounds := roundIds
                  timestamp := env.now
                  productAccess := if hasProductA then some "product_a" else none }
              match env.insertResult with
              | none => ⟨.ok (body none), store, some request⟩
              | some newId =>
                ⟨.ok (body (some newId)),
                  { store with insights := store.insights ++
                    [⟨newId, userId, triggeringRoundId, completeInsights, env.now⟩] },
                  some request⟩

end HandlerModel

section ProjectionDefs

/-- The `analyzedRounds` list carried inside an insight payload. -/
def insightsAnalyzed : CompleteInsights → List String
  | .premium _ _ _ _ _ _ _ a _ _ => a
  | .conversion _ _ _ _ _ _ _ a _ _ => a
  | .fallback _ _ a _ _ => a

/-- The `tieredInsights` card list of a conversion payload (empty for the
other shapes). -/
def insightsTiered : CompleteInsights → List ConvCard
  | .conversion _ t _ _ _ _ _ _ _ _ => t
  | _ => []

/-- The `insights` field of a successful response. -/
def respInsights : HandlerResp → Option CompleteInsights
  | .ok b => some b.insights
  | .err _ _ => none

/-- The top-level `analyzedRounds` field of a successful response. -/
def respAnalyzed : HandlerResp → Option (List String)
  | .ok b => some b.analyzedRounds
  | .err _ _ => none

/-- `created_at` of the first row of a rounds list (`0` for the empty list);
used to state that the head of the newest-first ordering is maximal. -/
def headCreated : List RoundRow → Nat
  | [] => 0
  | x :: _ => x.created_at

/-- The `analyzedRounds` id list assembled by the handler. -/
def genRoundIds (store : GStore) (userId : String) : List String :=
  (fetchedRounds store.rounds userId).map (fun r => r.id)

/-- The `processedRounds` list assembled by the handler. -/
def genProcessed (store : GStore) (userId : String) : List ProcessedRound :=
  (fetchedRounds store.rounds userId).map (fun r =>
    processRound store.courses
      (store.shots.filter (fun h => (genRoundIds store userId).contains h.round_id)) r)

end ProjectionDefs

section ExampleInputs

/-- A four-shot hole payload for the concrete examples. -/
def exHole4 : HoleData :=
  { par := some 4, distance := some 350, index := some 5,
    features := some ["water"],
    shots := some [⟨"Tee Shot", "On Target", none⟩, ⟨"Approach", "Slightly Off", none⟩,
      ⟨"Chip", "On Target", none⟩, ⟨"Putts", "On Target", none⟩],
    poi := none }

/-- A five-shot hole payload for the concrete examples. -/
def exHole5 : HoleData :=
  { par := some 5, distance := some 470, index := some 1,
    features := none,
    shots := some [⟨"Tee Shot", "Slightly Off", none⟩, ⟨"Long Shot", "On Target", none⟩,
      ⟨"Approach", "On Target", none⟩, ⟨"Putts", "Slightly Off", none⟩,
      ⟨"Putts", "On Target", none⟩],
    poi := none }

/-- Client-side hole data: only hole 1 recorded. -/
def exStored1 : Nat → Option HoleData :=
  fun n => if n = 1 then some exHole4 else none

/-- Client-side hole data: holes 1 and 2 recorded. -/
def exStored2 : Nat → Option HoleData :=
  fun n => if n = 1 then some exHole4 else if n = 2 then some exHole5 else none

/-- An incomplete round owned by profile `p1` on course `c1`. -/
def exRound : RoundRow :=
  ⟨"r1", "p1", "c1", some "Blue", false, none, none, 1000⟩

/-- A course whose stored par is `0` (falsy in JS). -/
def exCoursePar0 : CourseRow :=
  ⟨"c1", some "Test Links", some 0, none, none, none, none⟩

/-- A store holding the incomplete round and the par-`0` course. -/
def exStorePar0 : Store Unit :=
  ⟨[exRound], [exCoursePar0], [], [], [], []⟩

/-- A completed round that must survive `deleteAbandonedRound`. -/
def exCompletedRound : RoundRow :=
  ⟨"r9", "p1", "c1", none, true, some 90, some 18, 500⟩

/-- A store holding both an incomplete and a completed round. -/
def exStoreWithCompleted : Store Unit :=
  ⟨[exRound, exCompletedRound], [exCoursePar0], [], [], [], []⟩

/-- A `completeRound` environment with no injected store failures. -/
def exNoFail : FinEnv :=
  ⟨⟨false, false, fun _ => false, false, "store offline"⟩, .ok⟩

/-- A `completeRound` environment whose hole-2 upsert fails. -/
def exFailHole2 : FinEnv :=
  ⟨⟨false, false, fun n => decide (n = 2), false, "store offline"⟩, .ok⟩

/-- A par-72 course for the edge-function examples. -/
def exCourseG : CourseRow :=
  ⟨"c1", some "Test Links", some 72, some "The Club", some "Town", some "NL", none⟩

/-- An older completed round of profile `u1`. -/
def exRoundG1 : RoundRow :=
  ⟨"g1", "u1", "c1", some "Blue", true, some 90, some 18, 1000⟩

/-- The most recent completed round of profile `u1`. -/
def exRoundG2 : RoundRow :=
  ⟨"g2", "u1", "c1", some "Blue", true, some 85, some 13, 2000⟩

/-- A stored hole record of round `g2`. -/
def exShotRowG : ShotRow := ⟨"g2", 1, some exHole4, 4⟩

/-- An edge-function store: two completed rounds, no permission rows. -/
def exGStore : GStore :=
  ⟨[exRoundG1, exRoundG2], [exCourseG], [exShotRowG], [],
    [⟨"u1", some 12, some "Alex"⟩], []⟩

/-- A parsed summary card. -/
def exCardSummary : Card :=
  ⟨"card-1", "Summary", "You played steadily", "summary", 1, none, some "standard", none⟩

/-- A parsed premium-feature teaser card. -/
def exCardTeaser : Card :=
  ⟨"card-2", "Sequence Preview", "Premium teaser", "premium-feature", 2, none,
    some "filled", some "Upgrade now"⟩

/-- A parser recognizing exactly the message `RAW`. -/
def exParse : String → Option ParsedInsights :=
  fun s => if s = "RAW" then some ⟨some [exCardSummary, exCardTeaser]⟩ else none

/-- A non-entitled edge-function environment whose generation call returns a
parseable message. -/
def exGenEnv : GenEnv :=
  { claudeKeyPresent := true, supabaseUrlPresent := true, serviceRoleKeyPresent := true,
    authHeader := none, bodyUserId := some "u1", bodyRoundId := some "g2",
    authResult := .okNoUser, profileFails := false, permsFails := false,
    roundsFails := false, shotsFails := false,
    claudeOutcome := .ok "RAW", parseJson := exParse,
    insertResult := some "ins-1", now := "2025-03-18T00:00:00Z" }

/-- Like `exGenEnv`, but the model response parses as JSON nowhere. -/
def exGenEnvNoJson : GenEnv :=
  { exGenEnv with claudeOutcome := .ok "not json", parseJson := fun _ => none }

/-- An environment whose auth header resolves to no user and no error while
the body still supplies a profile id. -/
def exGenEnvNoUser : GenEnv :=
  { exGenEnv with authHeader := some "Bearer token", authResult := .okNoUser }

end ExampleInputs

section FinalizerLemmas

lemma keyMatch_of_match {rid : String} {n : Nat} {x : ShotRow}
    (hx : keyMatch rid n x = true) :
    x.round_id = rid ∧ x.hole_number = n := by
  simpa [keyMatch] using hx

lemma keyMatch_mkShotRow (rid rid2 : String) (n m : Nat) (h : HoleData) :
    keyMatch rid2 m (mkShotRow rid n h) = decide (rid = rid2 ∧ n = m) := by
  simp [keyMatch, mkShotRow]

lemma filter_keyMatch_map_replace (r : ShotRow) (rid : String) (n : Nat)
    (hne : keyMatch rid n r = false) (l : List ShotRow) :
    (l.map (fun x => if keyMatch r.round_id r.hole_number x then r else x)).filter
        (keyMatch rid n) =
      l.filter (keyMatch rid n) := by
  induction l with
  | nil => rfl
  | cons x xs ih =>
    by_cases hkx : keyMatch r.round_id r.hole_number x = true
    · have hf := keyMatch_of_match hkx
      have hxn : keyMatch rid n x = keyMatch rid n r := by
        simp [keyMatch, hf.1, hf.2]
    
      simp [List.filter_cons, hkx, hne, hxn, ih]
    · simp only [Bool.not_eq_true] at hkx
      simp [List.filter_cons, hkx, ih]

lemma filter_keyMatch_map_replace_self (r : ShotRow) (l : List ShotRow) :
    (l.map (fun x => if keyMatch r.round_id r.hole_number x then r else x)).filter
        (keyMatch r.round_id r.hole_number) =
      (l.filter (keyMatch r.round_id r.hole_number)).map (fun _ => r) := by
  induction l with
  | nil => rfl
  | cons x xs ih =>
    by_cases hkx : keyMatch r.round_id r.hole_number x = true
    · have hrr : keyMatch r.round_id r.hole_number r = true := by simp [keyMatch]
      simp [List.filter_cons, hkx, hrr, ih]
    · simp only [Bool.not_eq_true] at hkx
      simp [List.filter_cons, hkx, ih]

lemma holeRows_upsert_other {l : List ShotRow} {r : ShotRow} {rid : String} {n : Nat}
    (hne : keyMatch rid n r = false) :
    holeRows (upsertShot l r) rid n = holeRows l rid n := by
  unfold upsertShot holeRows
  split
  · exact filter_keyMatch_map_replace r rid n hne l
  · simp [List.filter_append, hne]

lemma holeRows_upsert_self (l : List ShotRow) (r : ShotRow) :
    holeRows (upsertShot l r) r.round_id r.hole_number =
      if holeRows l r.round_id r.hole_number = [] then [r]
      else (holeRows l r.round_id r.hole_number).map (fun _ => r) := by
  unfold upsertShot holeRows
  split
  case isTrue hany =>
    rw [filter_keyMatch_map_replace_self]
    obtain ⟨x, hx, hpx⟩ := List.any_eq_true.mp hany
    have hxmem : x ∈ l.filter (keyMatch r.round_id r.hole_number) :=
      List.mem_filter.mpr ⟨hx, hpx⟩
    have hne : l.filter (keyMatch r.round_id r.hole_number) ≠ [] := by
      intro hnil
      rw [hnil] at hxmem
      exact List.not_mem_nil x hxmem
    simp [hne]
  case isFalse hany =>
    have hnil : l.filter (keyMatch r.round_id r.hole_number) = [] := by
      refine List.eq_nil_iff_forall_not_mem.mpr (fun a ha => ?_)
      have hmem := List.mem_filter.mp ha
      exact hany (List.any_eq_true.mpr ⟨a, hmem.1, hmem.2⟩)
    have hrr : keyMatch r.round_id r.hole_number r = true := by simp [keyMatch]
    simp [List.filter_append, hnil, hrr]

lemma holeRows_upsert_self_mem {l : List ShotRow} {r x : ShotRow}
    (hx : x ∈ holeRows (upsertShot l r) r.round_id r.hole_number) : x = r := by
  rw [holeRows_upsert_self] at hx
  by_cases hnil : holeRows l r.round_id r.hole_number = []
  · simp [hnil] at hx
    exact hx
  · simp [hnil] at hx
    obtain ⟨_, _, rfl⟩ := hx
    rfl

lemma holeRows_upsert_self_ne_nil (l : List ShotRow) (r : ShotRow) :
    holeRows (upsertShot l r) r.round_id r.hole_number ≠ [] := by
  rw [holeRows_upsert_self]
  by_cases hnil : holeRows l r.round_id r.hole_number = []
  · simp [hnil]
  · simp [hnil]

end FinalizerLemmas

section LoopLemmas

lemma phShots_untouched (rid : String) (stored : Nat → Option HoleData) :
    ∀ (L : List Nat) (cur : List ShotRow) (rid2 : String) (m : Nat),
      (rid2 ≠ rid ∨ m ∉ L ∨ hasShotData stored m = false) →
      holeRows (phShots rid stored L cur) rid2 m = holeRows cur rid2 m := by
  intro L
  induction L with
  | nil => intro cur rid2 m _; rfl
  | cons n rest ih =>
    intro cur rid2 m hm
    have hm2 : rid2 ≠ rid ∨ m ∉ rest ∨ hasShotData stored m = false := by
      rcases hm with h | h | h
      · exact Or.inl h
      · exact Or.inr (Or.inl (fun hc => h (List.mem_cons_of_mem n hc)))
      · exact Or.inr (Or.inr h)
    by_cases hd : hasShotData stored n = true
    · rw [phShots]
      simp only [hd, if_true]
      rw [ih _ rid2 m hm2]
      have hkey : keyMatch rid2 m (mkShotRow rid n (getHole stored n)) = false := by
        rw [keyMatch_mkShotRow]
        simp only [decide_eq_false_iff_not]
        rintro ⟨rfl, rfl⟩
        rcases hm with h | h | h
        · exact h rfl
        · exact h (List.mem_cons_self n rest)
        · rw [hd] at h; exact Bool.noConfusion h
      exact holeRows_upsert_other hkey
    · rw [phShots]
      simp only [Bool.not_eq_true] at hd
      simp only [hd, Bool.false_eq_true, if_false]
      exact ih _ rid2 m hm2

lemma phShots_written (rid : String) (stored : Nat → Option HoleData) :
    ∀ (L : List Nat), L.Nodup → ∀ (cur : List ShotRow) (n : Nat), n ∈ L →
      hasShotData stored n = true →
      holeRows (phShots rid stored L cur) rid n =
        holeRows (upsertShot cur (mkShotRow rid n (getHole stored n))) rid n := by
  intro L
  induction L with
  | nil => intro _ cur n hn; exact absurd hn (List.not_mem_nil n)
  | cons k rest ih =>
    intro hnd cur n hn hd
    have hnd2 := List.nodup_cons.mp hnd
    rcases List.mem_cons.mp hn with rfl | hn2
    · rw [phShots]
      simp only [hd, if_true]
      exact phShots_untouched rid stored rest _ rid n (Or.inr (Or.inl hnd2.1))
    · have hkn : k ≠ n := fun hc => hnd2.1 (hc ▸ hn2)
      by_cases hkd : hasShotData stored k = true
      · rw [phShots]
        simp only [hkd, if_true]
        rw [ih hnd2.2 _ n hn2 hd]
        have hkey : keyMatch rid n (mkShotRow rid k (getHole stored k)) = false := by
          rw [keyMatch_mkShotRow]
          simp only [decide_eq_false_iff_not]
          rintro ⟨-, rfl⟩
          exact hkn rfl
        have hself := fun (x : List ShotRow) =>
          holeRows_upsert_self x (mkShotRow rid n (getHole stored n))
        have hred : (mkShotRow rid n (getHole stored n)).round_id = rid := rfl
        have hredn : (mkShotRow rid n (getHole stored n)).hole_number = n := rfl
        rw [hred, hredn] at hself
        rw [hself, hself, holeRows_upsert_other hkey]
      · rw [phShots]
        simp only [Bool.not_eq_true] at hkd
        simp only [hkd, Bool.false_eq_true, if_false]
        exact ih hnd2.2 _ n hn2 hd

lemma processHoles_no_fail (flags : FinFlags) (rid : String)
    (stored : Nat → Option HoleData) :
    ∀ (L : List Nat),
      (∀ n ∈ L, hasShotData stored n = true → flags.upsertFails n = false) →
      ∀ (cur : List ShotRow) (g : Nat),
        processHoles flags rid stored L cur g =
          (phShots rid stored L cur, g + sumShots stored L, none) := by
  intro L
  induction L with
  | nil => intro _ cur g; simp [processHoles, phShots, sumShots]
  | cons n rest ih =>
    intro hnf cur g
    by_cases hd : hasShotData stored n = true
    · have hok := hnf n (List.mem_cons_self n rest) hd
      rw [processHoles, phShots]
      simp only [hd, if_true, hok, Bool.false_eq_true, if_false]
      rw [ih (fun m hm => hnf m (List.mem_cons_of_mem n hm))]
      rw [sumShots]
      simp only [hd, if_true]
      rw [Nat.add_assoc]
    · rw [processHoles, phShots]
      simp only [Bool.not_eq_true] at hd
      simp only [hd, Bool.false_eq_true, if_false]
      rw [ih (fun m hm => hnf m (List.mem_cons_of_mem n hm))]
      rw [sumShots]
      simp [hd]

lemma processHoles_first_fail (flags : FinFlags) (rid : String)
    (stored : Nat → Option HoleData) :
    ∀ (L1 : List Nat) (N : Nat) (L2 : List Nat),
      (∀ m ∈ L1, hasShotData stored m = true → flags.upsertFails m = false) →
      hasShotData stored N = true → flags.upsertFails N = true →
      ∀ (cur : List ShotRow) (g : Nat),
        processHoles flags rid stored (L1 ++ N :: L2) cur g =
          (phShots rid stored L1 cur, g + sumShots stored L1, some N) := by
  intro L1
  induction L1 with
  | nil =>
    intro N L2 _ hNd hNf cur g
    rw [List.nil_append, processHoles]
    simp [hNd, hNf, phShots, sumShots]
  | cons m rest ih =>
    intro N L2 hnf hNd hNf cur g
    by_cases hd : hasShotData stored m = true
    · have hok := hnf m (List.mem_cons_self m rest) hd
      rw [List.cons_append, processHoles, phShots]
      simp only [hd, if_true, hok, Bool.false_eq_true, if_false]
      rw [ih N L2 (fun x hx => hnf x (List.mem_cons_of_mem m hx)) hNd hNf]
      rw [sumShots]
      simp only [hd, if_true]
      rw [Nat.add_assoc]
    · rw [List.cons_append, processHoles, phShots]
      simp only [Bool.not_eq_true] at hd
      simp only [hd, Bool.false_eq_true, if_false]
      rw [ih N L2 (fun x hx => hnf x (List.mem_cons_of_mem m hx)) hNd hNf]
      rw [sumShots]
      simp [hd]

end LoopLemmas

section CoreLemmas

lemma scoreUpdate_id_eq (rid : String) (g : Nat) (s : Int) (r : RoundRow) :
    (scoreUpdate rid g s r).id = r.id := by
  unfold scoreUpdate
  split <;> rfl

lemma scoreUpdate_profile_eq (rid : String) (g : Nat) (s : Int) (r : RoundRow) :
    (scoreUpdate rid g s r).profile_id = r.profile_id := by
  unfold scoreUpdate
  split <;> rfl

lemma scoreUpdate_course_eq (rid : String) (g : Nat) (s : Int) (r : RoundRow) :
    (scoreUpdate rid g s r).course_id = r.course_id := by
  unfold scoreUpdate
  split <;> rfl

lemma scoreUpdate_idem (rid : String) (g : Nat) (s : Int) (r : RoundRow) :
    scoreUpdate rid g s (scoreUpdate rid g s r) = scoreUpdate rid g s r := by
  unfold scoreUpdate
  by_cases hid : r.id = rid
  · simp [hid]
  · simp [hid]

lemma find?_map_pres {α : Type} (f : α → α) (p : α → Bool)
    (hp : ∀ x, p (f x) = p x) :
    ∀ l : List α, (l.map f).find? p = (l.find? p).map f := by
  intro l
  induction l with
  | nil => rfl
  | cons x xs ih =>
    by_cases hx : p x = true
    · rw [List.map_cons, List.find?_cons_of_pos _ (by rw [hp]; exact hx),
        List.find?_cons_of_pos _ hx]
      rfl
    · rw [List.map_cons, List.find?_cons_of_neg _ (by rw [hp]; exact hx),
        List.find?_cons_of_neg _ hx, ih]

lemma upsertShot_id_of_present {l : List ShotRow} {r : ShotRow}
    (hall : ∀ x ∈ holeRows l r.round_id r.hole_number, x = r)
    (hne : holeRows l r.round_id r.hole_number ≠ []) :
    upsertShot l r = l := by
  have hany : l.any (keyMatch r.round_id r.hole_number) = true := by
    rcases List.exists_mem_of_ne_nil _ hne with ⟨x, hx⟩
    have hmem := List.mem_filter.mp hx
    exact List.any_eq_true.mpr ⟨x, hmem.1, hmem.2⟩
  unfold upsertShot
  rw [if_pos hany]
  have hfix : ∀ x ∈ l, (if keyMatch r.round_id r.hole_number x then r else x) = x := by
    intro x hx
    by_cases hk : keyMatch r.round_id r.hole_number x = true
    · rw [if_pos hk]
      exact (hall x (List.mem_filter.mpr ⟨hx, hk⟩)).symm
    · rw [if_neg hk]
  rw [List.map_congr_left hfix]
  simp

lemma phShots_fixpoint (rid : String) (stored : Nat → Option HoleData) :
    ∀ (L : List Nat) (cur : List ShotRow),
      (∀ n ∈ L, hasShotData stored n = true →
        (∀ x ∈ holeRows cur rid n, x = mkShotRow rid n (getHole stored n)) ∧
          holeRows cur rid n ≠ []) →
      phShots rid stored L cur = cur := by
  intro L
  induction L with
  | nil => intro cur _; rfl
  | cons n rest ih =>
    intro cur hinv
    by_cases hd : hasShotData stored n = true
    · have hn := hinv n (List.mem_cons_self n rest) hd
      have hup : upsertShot cur (mkShotRow rid n (getHole stored n)) = cur :=
        upsertShot_id_of_present hn.1 hn.2
      rw [phShots]
      simp only [hd, if_true]
      rw [hup]
      exact ih cur (fun m hm => hinv m (List.mem_cons_of_mem n hm))
    · rw [phShots]
      simp only [Bool.not_eq_true] at hd
      simp only [hd, Bool.false_eq_true, if_false]
      exact ih cur (fun m hm => hinv m (List.mem_cons_of_mem n hm))

lemma completeRoundCore_success {P : Type} (flags : FinFlags) (store : Store P)
    (rid : String) (stored : Nat → Option HoleData) (th : Nat)
    (r0 : RoundRow) (c0 : CourseRow)
    (h1 : flags.roundFetchFails = false)
    (h2 : flags.courseFetchFails = false)
    (h3 : ∀ n, flags.upsertFails n = false)
    (h4 : flags.updateFails = false)
    (hr : store.rounds.find? (fun r => r.id = rid) = some r0)
    (hc : store.courses.find? (fun c => c.id = r0.course_id) = some c0) :
    completeRoundCore flags store rid stored th =
      ({ store with
          shots := phShots rid stored (holeRange th) store.shots,
          rounds := store.rounds.map
            (scoreUpdate rid (sumShots stored (holeRange th))
              ((sumShots stored (holeRange th) : Int) - jsParDefault c0.par)) },
        .ok ((store.rounds.map
            (scoreUpdate rid (sumShots stored (holeRange th))
              ((sumShots stored (holeRange th) : Int) - jsParDefault c0.par))).filter
          (fun r => r.id = rid)),
        [(r0.profile_id, rid)]) := by
  unfold completeRoundCore
  rw [processHoles_no_fail flags rid stored (holeRange th) (fun n _ _ => h3 n)
    store.shots 0]
  simp only [h1, h2, h4, hr, hc, Bool.false_eq_true, if_false, Nat.zero_add]

end CoreLemmas

section MoreLemmas

lemma holeRange_decomp {N th : Nat} (hN1 : 1 ≤ N) (hNth : N ≤ th) :
    holeRange th = List.range' 1 (N - 1) ++ N :: List.range' (N + 1) (th - N) := by
  have ha := List.range'_append 1 (N - 1) (th - N + 1) 1
  have e1 : 1 + 1 * (N - 1) = N := by omega
  have e2 : th - N + 1 + (N - 1) = th := by omega
  rw [e1, e2] at ha
  rw [holeRange, ← ha]
  congr 1

lemma completeRoundCore_first_fail {P : Type} (flags : FinFlags) (store : Store P)
    (rid : String) (stored : Nat → Option HoleData) (th N : Nat)
    (r0 : RoundRow) (c0 : CourseRow)
    (h1 : flags.roundFetchFails = false)
    (h2 : flags.courseFetchFails = false)
    (hr : store.rounds.find? (fun r => r.id = rid) = some r0)
    (hc : store.courses.find? (fun c => c.id = r0.course_id) = some c0)
    (hN1 : 1 ≤ N) (hNth : N ≤ th)
    (hNd : hasShotData stored N = true) (hNf : flags.upsertFails N = true)
    (hbefore : ∀ m, m < N → hasShotData stored m = true → flags.upsertFails m = false) :
    completeRoundCore flags store rid stored th =
      ({ store with shots := phShots rid stored (List.range' 1 (N - 1)) store.shots },
        .err (holeFailMsg N flags.dbErrMsg), []) := by
  unfold completeRoundCore
  rw [holeRange_decomp hN1 hNth]
  rw [processHoles_first_fail flags rid stored (List.range' 1 (N - 1)) N
    (List.range' (N + 1) (th - N))
    (fun m hm hd => hbefore m (by have := List.mem_range'_1.mp hm; omega) hd)
    hNd hNf store.shots 0]
  simp only [h1, h2, hr, hc, Bool.false_eq_true, if_false]

lemma insertByCreatedDesc_head_ge (r : RoundRow) (l : List RoundRow) :
    r.created_at ≤ headCreated (insertByCreatedDesc r l) ∧
    headCreated l ≤ headCreated (insertByCreatedDesc r l) := by
  cases l with
  | nil => exact ⟨Nat.le_refl _, Nat.zero_le _⟩
  | cons x xs =>
    rw [insertByCreatedDesc]
    by_cases hle : r.created_at ≤ x.created_at
    · rw [if_pos hle]
      exact ⟨hle, Nat.le_refl _⟩
    · rw [if_neg hle]
      exact ⟨Nat.le_refl _, Nat.le_of_lt (Nat.lt_of_not_le hle)⟩

lemma sortByCreatedDesc_head_ge :
    ∀ (l : List RoundRow), ∀ x ∈ l, x.created_at ≤ headCreated (sortByCreatedDesc l) := by
  intro l
  induction l with
  | nil => intro x hx; exact absurd hx (List.not_mem_nil x)
  | cons a t ih =>
    intro x hx
    rw [sortByCreatedDesc]
    rcases List.mem_cons.mp hx with rfl | hx2
    · exact (insertByCreatedDesc_head_ge x (sortByCreatedDesc t)).1
    · exact Nat.le_trans (ih x hx2) (insertByCreatedDesc_head_ge a (sortByCreatedDesc t)).2

lemma headCreated_take {n : Nat} (hn : 1 ≤ n) :
    ∀ l : List RoundRow, headCreated (l.take n) = headCreated l := by
  intro l
  cases l with
  | nil => rw [List.take_nil]
  | cons x xs =>
    obtain ⟨m, rfl⟩ : ∃ m, n = m + 1 := ⟨n - 1, by omega⟩
    rw [List.take_succ_cons]
    rfl

lemma fetchedRounds_head_ge (rounds : List RoundRow) (userId : String) :
    ∀ r ∈ completedRoundsOf rounds userId,
      r.created_at ≤ headCreated (fetchedRounds rounds userId) := by
  intro r hr
  rw [fetchedRounds, headCreated_take (by omega)]
  exact sortByCreatedDesc_head_ge (completedRoundsOf rounds userId) r hr

lemma claude_err_ne_auth (s : String) :
    ("Claude API error: " ++ s) ≠ authErrorMsg := by
  intro h
  have hd := congrArg String.data h
  rw [String.data_append] at hd
  have h1 : "Claude API error: ".data = 'C' :: "laude API error: ".data := rfl
  have h2 : authErrorMsg.data =
      'U' :: "nable to determine user ID. Please ensure you're logged in.".data := rfl
  rw [h1, h2] at hd
  simp at hd

end MoreLemmas

section ClaimTheoremsFinalizer

/-- C1 (amended): for every successful `completeRound`, the round row is
rewritten with `score = grossShots - coursePar` where `grossShots` is the sum
of `shots.length` over the holes of `1..totalHoles` with a non-empty shot
list, and `coursePar` is the course par defaulted to `72` when the stored par
is `null`/`undefined` or `0` (JS falsiness, `courseData.par || 72`) — the
spec's "exactly when null/undefined" fails at par `0`, see the
counterexample. -/
theorem completeRound_score_formula {P : Type} (env : FinEnv) (store : Store P)
    (rid : String) (stored : Nat → Option HoleData) (th : Nat)
    (r0 : RoundRow) (c0 : CourseRow)
    (h1 : env.flags.roundFetchFails = false)
    (h2 : env.flags.courseFetchFails = false)
    (h3 : ∀ n, env.flags.upsertFails n = false)
    (h4 : env.flags.updateFails = false)
    (hr : store.rounds.find? (fun r => r.id = rid) = some r0)
    (hc : store.courses.find? (fun c => c.id = r0.course_id) = some c0) :
    (completeRound env store rid stored th).store.rounds.find? (fun r => r.id = rid) =
      some { r0 with
             is_complete := true,
             gross_shots := some (sumShots stored (holeRange th) : Int),
             score := some ((sumShots stored (holeRange th) : Int) - jsParDefault c0.par) } := by
  have hcore := completeRoundCore_success env.flags store rid stored th r0 c0 h1 h2 h3 h4 hr hc
  have hrid : r0.id = rid := by
    have := List.find?_some hr
    simpa using this
  show (completeRoundCore env.flags store rid stored th).1.rounds.find? _ = _
  rw [hcore]
  show (store.rounds.map _).find? _ = _
  rw [find?_map_pres _ _ (fun x => by rw [scoreUpdate_id_eq]) store.rounds, hr,
    Option.map_some']
  unfold scoreUpdate
  rw [if_pos hrid]

/-- C1 (counterexample to the claim as stated): with a stored course par of
`0` — which is not `null`/`undefined` — the code still applies the default
`72`: the written score is `4 - 72 = -68`, while the spec formula
`grossShots - specCoursePar par` gives `4 - 0 = 4`. -/
theorem completeRound_specParDefault_counterexample :
    exCoursePar0.par = some 0 ∧
    ((completeRound exNoFail exStorePar0 "r1" exStored1 18).store.rounds.find?
        (fun r => r.id = "r1")).map (fun r => r.score) = some (some (-68)) ∧
    (sumShots exStored1 (holeRange 18) : Int) - specCoursePar exCoursePar0.par = 4 ∧
    ((completeRound exNoFail exStorePar0 "r1" exStored1 18).store.rounds.find?
        (fun r => r.id = "r1")).map (fun r => r.score) ≠
      some (some ((sumShots exStored1 (holeRange 18) : Int) -
        specCoursePar exCoursePar0.par)) := by
  refine ⟨rfl, by decide, by decide, by decide⟩

/-- C1 (witness): the amended theorem applied to the concrete par-`0` store
with one four-shot hole. -/
theorem completeRound_score_formula_witness :
    (completeRound exNoFail exStorePar0 "r1" exStored1 18).store.rounds.find?
        (fun r => r.id = "r1") =
      some { exRound with
             is_complete := true,
             gross_shots := some (sumShots exStored1 (holeRange 18) : Int),
             score := some ((sumShots exStored1 (holeRange 18) : Int) -
               jsParDefault exCoursePar0.par) } :=
  completeRound_score_formula exNoFail exStorePar0 "r1" exStored1 18 exRound exCoursePar0
    rfl rfl (fun _ => rfl) rfl (by decide) (by decide)

/-- C5: two `completeRound` executions that differ only in the outcome of the
fire-and-forget insight trigger produce the same store and return the same
value — the trigger outcome is only ever observed by the logging
continuation. -/
theorem completeRound_insight_outcome_noninterference {P : Type} (flags : FinFlags)
    (o1 o2 : InsightOutcome) (store : Store P) (rid : String)
    (stored : Nat → Option HoleData) (th : Nat) :
    (completeRound ⟨flags, o1⟩ store rid stored th).store =
      (completeRound ⟨flags, o2⟩ store rid stored th).store ∧
    (completeRound ⟨flags, o1⟩ store rid stored th).result =
      (completeRound ⟨flags, o2⟩ store rid stored th).result := by
  exact ⟨rfl, rfl⟩

/-- C9: `deleteAbandonedRound` never removes a completed round: every round
row with `is_complete = true` present before the call is still present after
it, whether the delete succeeds or fails. -/
theorem deleteAbandonedRound_preserves_completed {P : Type} (deleteFails : Bool)
    (store : Store P) (rid : String) (r : RoundRow)
    (hmem : r ∈ store.rounds) (hcomp : r.is_complete = true) :
    r ∈ (deleteAbandonedRound deleteFails store rid).1.rounds := by
  unfold deleteAbandonedRound
  by_cases hf : deleteFails = true
  · rw [if_pos hf]
    exact hmem
  · rw [if_neg hf]
    refine List.mem_filter.mpr ⟨hmem, ?_⟩
    simp [hcomp]

/-- C9 (witness): the completed round `r9` survives deleting its own id. -/
theorem deleteAbandonedRound_preserves_completed_witness :
    exCompletedRound ∈
      (deleteAbandonedRound false exStoreWithCompleted "r9").1.rounds :=
  deleteAbandonedRound_preserves_completed false exStoreWithCompleted "r9"
    exCompletedRound (by decide) rfl

end ClaimTheoremsFinalizer

section ClaimTheoremsFinalizer2

/-- C2: on a fresh round (no pre-existing hole records) whose mapping keys
lie in `1..totalHoles` (the input contract of `holeDataByNumber`), a
successful `completeRound` leaves exactly one hole record for every hole
number with a non-empty shot list and none for absent/empty holes. -/
theorem completeRound_writes_exactly_present_holes {P : Type} (env : FinEnv)
    (store : Store P) (rid : String) (stored : Nat → Option HoleData) (th : Nat)
    (r0 : RoundRow) (c0 : CourseRow)
    (h1 : env.flags.roundFetchFails = false)
    (h2 : env.flags.courseFetchFails = false)
    (h3 : ∀ n, env.flags.upsertFails n = false)
    (h4 : env.flags.updateFails = false)
    (hr : store.rounds.find? (fun r => r.id = rid) = some r0)
    (hc : store.courses.find? (fun c => c.id = r0.course_id) = some c0)
    (hdom : ∀ n, hasShotData stored n = true → 1 ≤ n ∧ n ≤ th)
    (hfresh : ∀ n, holeRows store.shots rid n = [])
    (_hmap : ∃ n h, stored n = some h) :
    ∀ n, holeRows (completeRound env store rid stored th).store.shots rid n =
      (if hasShotData stored n = true
        then [mkShotRow rid n (getHole stored n)] else []) := by
  intro n
  have hcore := completeRoundCore_success env.flags store rid stored th r0 c0 h1 h2 h3 h4 hr hc
  have hshots : (completeRound env store rid stored th).store.shots =
      phShots rid stored (holeRange th) store.shots := by
    show (completeRoundCore env.flags store rid stored th).1.shots = _
    rw [hcore]
  rw [hshots]
  by_cases hd : hasShotData stored n = true
  · rw [if_pos hd]
    have hmem : n ∈ holeRange th := by
      have hb := hdom n hd
      rw [holeRange]
      exact List.mem_range'_1.mpr ⟨hb.1, by omega⟩
    rw [phShots_written rid stored (holeRange th)
      (List.nodup_range' 1 th 1 Nat.one_pos) store.shots n hmem hd]
    have hself := holeRows_upsert_self store.shots (mkShotRow rid n (getHole stored n))
    rw [show (mkShotRow rid n (getHole stored n)).round_id = rid from rfl,
      show (mkShotRow rid n (getHole stored n)).hole_number = n from rfl] at hself
    rw [hself, hfresh n, if_pos rfl]
  · rw [if_neg hd]
    rw [phShots_untouched rid stored (holeRange th) store.shots rid n
      (Or.inr (Or.inr (by simpa using hd)))]
    exact hfresh n

/-- C2 (witness): on the fresh par-`0` store with holes 1 and 2 recorded,
hole 2 gets exactly one record and hole 3 none. -/
theorem completeRound_writes_exactly_present_holes_witness :
    holeRows (completeRound exNoFail exStorePar0 "r1" exStored2 18).store.shots "r1" 2 =
      (if hasShotData exStored2 2 = true
        then [mkShotRow "r1" 2 (getHole exStored2 2)] else []) ∧
    holeRows (completeRound exNoFail exStorePar0 "r1" exStored2 18).store.shots "r1" 3 =
      (if hasShotData exStored2 3 = true
        then [mkShotRow "r1" 3 (getHole exStored2 3)] else []) := by
  have h := completeRound_writes_exactly_present_holes exNoFail exStorePar0 "r1"
    exStored2 18 exRound exCoursePar0 rfl rfl (fun _ => rfl) rfl (by decide) (by decide)
    (by
      intro n hn
      by_cases hn1 : n = 1
      · omega
      · by_cases hn2 : n = 2
        · omega
        · simp [exStored2, hn1, hn2, hasShotData] at hn)
    (by intro n; rfl)
    ⟨1, exHole4, by simp [exStored2]⟩
  exact ⟨h 2, h 3⟩

/-- C3: when the upsert of hole `N` is the first to fail, `completeRound`
fails with the message identifying hole `N`, the round row (completion flag
and totals) is untouched, and every hole written before `N` remains written
(no rollback). -/
theorem completeRound_hole_failure_aborts {P : Type} (env : FinEnv)
    (store : Store P) (rid : String) (stored : Nat → Option HoleData) (th N : Nat)
    (r0 : RoundRow) (c0 : CourseRow)
    (h1 : env.flags.roundFetchFails = false)
    (h2 : env.flags.courseFetchFails = false)
    (hr : store.rounds.find? (fun r => r.id = rid) = some r0)
    (hc : store.courses.find? (fun c => c.id = r0.course_id) = some c0)
    (hN1 : 1 ≤ N) (hNth : N ≤ th)
    (hNd : hasShotData stored N = true) (hNf : env.flags.upsertFails N = true)
    (hbefore : ∀ m, m < N → hasShotData stored m = true →
      env.flags.upsertFails m = false)
    (hfresh : ∀ n, holeRows store.shots rid n = []) :
    (completeRound env store rid stored th).result =
      .err (holeFailMsg N env.flags.dbErrMsg) ∧
    (completeRound env store rid stored th).store.rounds = store.rounds ∧
    ∀ m, 1 ≤ m → m < N → hasShotData stored m = true →
      holeRows (completeRound env store rid stored th).store.shots rid m =
        [mkShotRow rid m (getHole stored m)] := by
  have hcore := completeRoundCore_first_fail env.flags store rid stored th N r0 c0
    h1 h2 hr hc hN1 hNth hNd hNf hbefore
  refine ⟨?_, ?_, ?_⟩
  · show (completeRoundCore env.flags store rid stored th).2.1 = _
    rw [hcore]
  · show (completeRoundCore env.flags store rid stored th).1.rounds = _
    rw [hcore]
  · intro m hm1 hmN hmd
    have hshots : (completeRound env store rid stored th).store.shots =
        phShots rid stored (List.range' 1 (N - 1)) store.shots := by
      show (completeRoundCore env.flags store rid stored th).1.shots = _
      rw [hcore]
    rw [hshots]
    have hmem : m ∈ List.range' 1 (N - 1) :=
      List.mem_range'_1.mpr ⟨hm1, by omega⟩
    rw [phShots_written rid stored (List.range' 1 (N - 1))
      (List.nodup_range' 1 (N - 1) 1 Nat.one_pos) store.shots m hmem hmd]
    have hself := holeRows_upsert_self store.shots (mkShotRow rid m (getHole stored m))
    rw [show (mkShotRow rid m (getHole stored m)).round_id = rid from rfl,
      show (mkShotRow rid m (getHole stored m)).hole_number = m from rfl] at hself
    rw [hself, hfresh m, if_pos rfl]

/-- C3 (witness): with holes 1 and 2 recorded and the hole-2 upsert failing,
the call aborts naming hole 2, the round row is untouched, and hole 1 stays
written. -/
theorem completeRound_hole_failure_aborts_witness :
    (completeRound exFailHole2 exStorePar0 "r1" exStored2 18).result =
      .err (holeFailMsg 2 exFailHole2.flags.dbErrMsg) ∧
    (completeRound exFailHole2 exStorePar0 "r1" exStored2 18).store.rounds =
      exStorePar0.rounds ∧
    holeRows (completeRound exFailHole2 exStorePar0 "r1" exStored2 18).store.shots
        "r1" 1 = [mkShotRow "r1" 1 (getHole exStored2 1)] := by
  have h := completeRound_hole_failure_aborts exFailHole2 exStorePar0 "r1" exStored2
    18 2 exRound exCoursePar0 rfl rfl (by decide) (by decide) (by omega) (by omega)
    (by decide) (by decide)
    (by intro m hm _; interval_cases m <;> rfl)
    (by intro n; rfl)
  exact ⟨h.1, h.2.1, h.2.2 1 (by omega) (by omega) (by decide)⟩

end ClaimTheoremsFinalizer2

section ClaimTheoremsFinalizer3

/-- C4: re-invoking `completeRound` with identical inputs after a full
success is a no-op: every hole upsert rewrites the already-present identical
record and the final update recomputes and rewrites the same gross shots,
score and completion flag, so the store and the returned value are
unchanged. -/
theorem completeRound_idempotent {P : Type} (env : FinEnv) (store : Store P)
    (rid : String) (stored : Nat → Option HoleData) (th : Nat)
    (r0 : RoundRow) (c0 : CourseRow)
    (h1 : env.flags.roundFetchFails = false)
    (h2 : env.flags.courseFetchFails = false)
    (h3 : ∀ n, env.flags.upsertFails n = false)
    (h4 : env.flags.updateFails = false)
    (hr : store.rounds.find? (fun r => r.id = rid) = some r0)
    (hc : store.courses.find? (fun c => c.id = r0.course_id) = some c0) :
    completeRound env (completeRound env store rid stored th).store rid stored th =
      completeRound env store rid stored th := by
  have hcore1 := completeRoundCore_success env.flags store rid stored th r0 c0
    h1 h2 h3 h4 hr hc
  have hs1 : (completeRound env store rid stored th).store =
      { store with
        shots := phShots rid stored (holeRange th) store.shots,
        rounds := store.rounds.map (scoreUpdate rid (sumShots stored (holeRange th))
          ((sumShots stored (holeRange th) : Int) - jsParDefault c0.par)) } := by
    show (completeRoundCore env.flags store rid stored th).1 = _
    rw [hcore1]
  have hr2 : ({ store with
        shots := phShots rid stored (holeRange th) store.shots,
        rounds := store.rounds.map (scoreUpdate rid (sumShots stored (holeRange th))
          ((sumShots stored (holeRange th) : Int) - jsParDefault c0.par)) } :
          Store P).rounds.find? (fun r => r.id = rid) =
      some (scoreUpdate rid (sumShots stored (holeRange th))
        ((sumShots stored (holeRange th) : Int) - jsParDefault c0.par) r0) := by
    show (store.rounds.map _).find? _ = _
    rw [find?_map_pres _ _ (fun x => by rw [scoreUpdate_id_eq]) store.rounds, hr,
      Option.map_some']
  have hc2 : ({ store with
        shots := phShots rid stored (holeRange th) store.shots,
        rounds := store.rounds.map (scoreUpdate rid (sumShots stored (holeRange th))
          ((sumShots stored (holeRange th) : Int) - jsParDefault c0.par)) } :
          Store P).courses.find?
        (fun c => c.id = (scoreUpdate rid (sumShots stored (holeRange th))
          ((sumShots stored (holeRange th) : Int) - jsParDefault c0.par) r0).course_id) =
      some c0 := by
    show store.courses.find? _ = _
    rw [scoreUpdate_course_eq]
    exact hc
  have hcore2 := completeRoundCore_success env.flags
    { store with
      shots := phShots rid stored (holeRange th) store.shots,
      rounds := store.rounds.map (scoreUpdate rid (sumShots stored (holeRange th))
        ((sumShots stored (holeRange th) : Int) - jsParDefault c0.par)) }
    rid stored th
    (scoreUpdate rid (sumShots stored (holeRange th))
      ((sumShots stored (holeRange th) : Int) - jsParDefault c0.par) r0) c0
    h1 h2 h3 h4 hr2 hc2
  have hphsh : phShots rid stored (holeRange th)
      (phShots rid stored (holeRange th) store.shots) =
      phShots rid stored (holeRange th) store.shots := by
    apply phShots_fixpoint
    intro n hmem hd
    have hkey := phShots_written rid stored (holeRange th)
      (List.nodup_range' 1 th 1 Nat.one_pos) store.shots n hmem hd
    constructor
    · intro x hx
      rw [hkey] at hx
      exact @holeRows_upsert_self_mem store.shots (mkShotRow rid n (getHole stored n)) x hx
    · rw [hkey]
      exact holeRows_upsert_self_ne_nil store.shots (mkShotRow rid n (getHole stored n))
  have hrmap : (store.rounds.map (scoreUpdate rid (sumShots stored (holeRange th))
        ((sumShots stored (holeRange th) : Int) - jsParDefault c0.par))).map
        (scoreUpdate rid (sumShots stored (holeRange th))
          ((sumShots stored (holeRange th) : Int) - jsParDefault c0.par)) =
      store.rounds.map (scoreUpdate rid (sumShots stored (holeRange th))
        ((sumShots stored (holeRange th) : Int) - jsParDefault c0.par)) := by
    rw [List.map_map]
    exact List.map_congr_left (fun x _ => scoreUpdate_idem rid _ _ x)
  rw [show completeRound env (completeRound env store rid stored th).store rid stored th
      = completeRound env
        { store with
          shots := phShots rid stored (holeRange th) store.shots,
          rounds := store.rounds.map (scoreUpdate rid (sumShots stored (holeRange th))
            ((sumShots stored (holeRange th) : Int) - jsParDefault c0.par)) }
        rid stored th from by rw [hs1]]
  unfold completeRound
  rw [hcore1, hcore2]
  simp only [hphsh, hrmap, scoreUpdate_profile_eq]

/-- C4 (witness): re-running the concrete one-hole completion is a no-op. -/
theorem completeRound_idempotent_witness :
    completeRound exNoFail
        (completeRound exNoFail exStorePar0 "r1" exStored1 18).store
        "r1" exStored1 18 =
      completeRound exNoFail exStorePar0 "r1" exStored1 18 :=
  completeRound_idempotent exNoFail exStorePar0 "r1" exStored1 18 exRound exCoursePar0
    rfl rfl (fun _ => rfl) rfl (by decide) (by decide)

end ClaimTheoremsFinalizer3

section ClaimTheoremsGenerator

/-- C8 (amended): caller identity prefers the authenticated-session identity;
the body-supplied profile id is used when the header is absent or the token
lookup errors or throws; but when the token lookup returns no error and no
user, the resolution yields nothing — the body id is NOT consulted — and the
call fails with the auth error exactly when the resolution (JS-truthily)
yields no id. -/
theorem handler_identity_resolution (env : GenEnv) (store : GStore)
    (hk1 : env.claudeKeyPresent = true)
    (hk2 : env.supabaseUrlPresent = true)
    (hk3 : env.serviceRoleKeyPresent = true) :
    (env.authHeader = none → resolveUserId env = env.bodyUserId) ∧
    (∀ t m, env.authHeader = some t → env.authResult = .err m →
      resolveUserId env = env.bodyUserId) ∧
    (∀ t m, env.authHeader = some t → env.authResult = .exn m →
      resolveUserId env = env.bodyUserId) ∧
    (∀ t u, env.authHeader = some t → env.authResult = .okUser u →
      resolveUserId env = some u) ∧
    (∀ t, env.authHeader = some t → env.authResult = .okNoUser →
      resolveUserId env = none) ∧
    ((runHandler env store).resp = .err 500 authErrorMsg ↔
      jsTruthyStr (resolveUserId env) = none) := by
  refine ⟨?_, ?_, ?_, ?_, ?_, ?_⟩
  · intro h; simp [resolveUserId, h]
  · intro t m ht ha; simp [resolveUserId, ht, ha]
  · intro t m ht ha; simp [resolveUserId, ht, ha]
  · intro t u ht ha; simp [resolveUserId, ht, ha]
  · intro t ht ha; simp [resolveUserId, ht, ha]
  constructor
  · intro hresp
    by_contra hres
    obtain ⟨uid, huid⟩ : ∃ u, jsTruthyStr (resolveUserId env) = some u := by
      cases h : jsTruthyStr (resolveUserId env) with
      | none => exact absurd h hres
      | some u => exact ⟨u, rfl⟩
    rw [runHandler] at hresp
    simp only [hk1, hk2, hk3, huid] at hresp
    by_cases hrf : env.roundsFails = true
    · simp [hrf] at hresp
      exact absurd hresp (by decide)
    · simp only [hrf, Bool.false_eq_true, if_false] at hresp
      by_cases hem : (fetchedRounds store.rounds uid).isEmpty = true
      · simp [hem] at hresp
        exact absurd hresp (by decide)
      · simp only [hem, Bool.false_eq_true, if_false] at hresp
        by_cases hsf : env.shotsFails = true
        · simp [hsf] at hresp
          exact absurd hresp (by decide)
        · simp only [hsf, Bool.false_eq_true, if_false] at hresp
          cases hco : env.claudeOutcome with
          | error s =>
            simp [hco] at hresp
            exact claude_err_ne_auth (toString s) hresp
          | ok m =>
            cases hins : env.insertResult with
            | none => simp [hco, hins] at hresp
            | some i => simp [hco, hins] at hresp
  · intro hnone
    rw [runHandler]
    simp [hk1, hk2, hk3, hnone]

/-- C8 (counterexample to the claim as stated): the auth header is present,
its token lookup returns no user and no error, and the body supplies a
profile id — a source yields an id — yet the call fails with the auth
error. -/
theorem resolveUserId_no_fallback_counterexample :
    exGenEnvNoUser.bodyUserId = some "u1" ∧
    exGenEnvNoUser.authHeader.isSome = true ∧
    (runHandler exGenEnvNoUser exGStore).resp = .err 500 authErrorMsg := by
  refine ⟨rfl, rfl, by decide⟩

/-- C8 (witness): the amended theorem applied to the concrete
no-user-no-error environment. -/
theorem handler_identity_resolution_witness :
    (runHandler exGenEnvNoUser exGStore).resp = .err 500 authErrorMsg :=
  (handler_identity_resolution exGenEnvNoUser exGStore rfl rfl rfl).2.2.2.2.2.mpr
    (by decide)

end ClaimTheoremsGenerator

section ClaimTheoremsGenerator2

/-- C7: JSON extraction tries the fenced-with-language regex, then the
fenced-without-language regex, then the raw text, each only if the previous
yielded no match (an empty capture group falls back to the raw message via
`jsonMatch[1] || claudeMessage`, modelled by `jsOrStr`); and when no
candidate parses, the handler does not throw: it returns a 200 response whose
payload is the fallback object with `error: "Failed to parse as JSON"` and
the raw response text. -/
theorem handler_json_extraction_fallback (env : GenEnv) (store : GStore)
    (userId msg : String)
    (hk1 : env.claudeKeyPresent = true)
    (hk2 : env.supabaseUrlPresent = true)
    (hk3 : env.serviceRoleKeyPresent = true)
    (hu : jsTruthyStr (resolveUserId env) = some userId)
    (hrf : env.roundsFails = false)
    (hne : fetchedRounds store.rounds userId ≠ [])
    (hsf : env.shotsFails = false)
    (hco : env.claudeOutcome = .ok msg)
    (hl : ∀ c, findFencedLang msg = some c → env.parseJson (jsOrStr c msg) = none)
    (hf : ∀ c, findFencedLang msg = none → findFenced msg = some c →
      env.parseJson (jsOrStr c msg) = none)
    (hraw : env.parseJson msg = none) :
    (∀ c, findFencedLang msg = some c → extractJsonCandidate msg = jsOrStr c msg) ∧
    (∀ c, findFencedLang msg = none → findFenced msg = some c →
      extractJsonCandidate msg = jsOrStr c msg) ∧
    (findFencedLang msg = none → findFenced msg = none →
      extractJsonCandidate msg = msg) ∧
    env.parseJson (extractJsonCandidate msg) = none ∧
    (runHandler env store).resp =
      .ok { message := "Golf insights generated successfully",
            insights := .fallback "Failed to parse as JSON" msg
              (genRoundIds store userId) env.now
              (if computeHasProductA env.permsFails store.user_permissions userId
                then some "product_a" else none),
            insightsId := env.insertResult,
            analyzedRounds := genRoundIds store userId,
            timestamp := env.now,
            productAccess :=
              if computeHasProductA env.permsFails store.user_permissions userId
                then some "product_a" else none } := by
  have hcand : env.parseJson (extractJsonCandidate msg) = none := by
    unfold extractJsonCandidate
    cases hfl : findFencedLang msg with
    | some c => exact hl c hfl
    | none =>
      cases hff : findFenced msg with
      | some c => exact hf c hfl hff
      | none => simpa [ite_self] using hraw
  have hem : (fetchedRounds store.rounds userId).isEmpty = false := by
    rw [List.isEmpty_eq_false]
    exact hne
  refine ⟨?_, ?_, ?_, hcand, ?_⟩
  · intro c hfl
    simp [extractJsonCandidate, hfl, jsOrStr]
  · intro c hfl hff
    simp [extractJsonCandidate, hfl, hff, jsOrStr]
  · intro hfl hff
    simp [extractJsonCandidate, hfl, hff]
  · rw [runHandler]
    simp only [hk1, hk2, hk3, hu, hrf, hsf, hco, hem, Bool.false_eq_true, if_false]
    cases hins : env.insertResult with
    | none =>
      simp [hins, buildCompleteInsights, hcand, genRoundIds]
    | some i =>
      simp [hins, buildCompleteInsights, hcand, genRoundIds]

/-- C7 (witness): the fallback path on the concrete store with a response
text that parses nowhere. -/
theorem handler_json_extraction_fallback_witness :
    exGenEnvNoJson.parseJson (extractJsonCandidate "not json") = none ∧
    (runHandler exGenEnvNoJson exGStore).resp =
      .ok { message := "Golf insights generated successfully",
            insights := .fallback "Failed to parse as JSON" "not json"
              (genRoundIds exGStore "u1") exGenEnvNoJson.now
              (if computeHasProductA exGenEnvNoJson.permsFails
                  exGStore.user_permissions "u1"
                then some "product_a" else none),
            insightsId := exGenEnvNoJson.insertResult,
            analyzedRounds := genRoundIds exGStore "u1",
            timestamp := exGenEnvNoJson.now,
            productAccess :=
              if computeHasProductA exGenEnvNoJson.permsFails
                  exGStore.user_permissions "u1"
                then some "product_a" else none } := by
  have h := handler_json_extraction_fallback exGenEnvNoJson exGStore "u1" "not json"
    rfl rfl rfl (by decide) rfl (by decide) rfl rfl
    (by
      intro c hc
      rw [show findFencedLang "not json" = none from by decide] at hc
      exact Option.noConfusion hc)
    (by
      intro c hfl hc
      rw [show findFenced "not json" = none from by decide] at hc
      exact Option.noConfusion hc)
    rfl
  exact ⟨h.2.2.2.1, h.2.2.2.2⟩

end ClaimTheoremsGenerator2

section ClaimTheoremsGenerator3

/-- C6: with the entitlement flag false, the data sent to the generation API
contains exactly one round — the most recent completed one — `max_tokens` is
the reduced budget 4000, and in the returned card list the conversion
affordances (`usePremiumButton`, `productId`, `ctaText`) are attached to a
card exactly when its type is the teaser type `"premium-feature"`. -/
theorem handler_non_entitled_limits (env : GenEnv) (store : GStore)
    (userId msg : String)
    (hk1 : env.claudeKeyPresent = true)
    (hk2 : env.supabaseUrlPresent = true)
    (hk3 : env.serviceRoleKeyPresent = true)
    (hu : jsTruthyStr (resolveUserId env) = some userId)
    (hperm : computeHasProductA env.permsFails store.user_permissions userId = false)
    (hrf : env.roundsFails = false)
    (hne : fetchedRounds store.rounds userId ≠ [])
    (hsf : env.shotsFails = false)
    (hco : env.claudeOutcome = .ok msg) :
    (runHandler env store).request =
      some ⟨"claude-sonnet-4-20250514", 4000, false,
        ⟨(genProcessed store userId).take 1,
          ((genProcessed store userId).take 1).length, true⟩⟩ ∧
    ((genProcessed store userId).take 1).length = 1 ∧
    (∀ pr ∈ (genProcessed store userId).take 1,
      ∀ r ∈ completedRoundsOf store.rounds userId, r.created_at ≤ pr.timestamp) ∧
    (runHandler env store).resp =
      .ok { message := "Golf insights generated successfully",
            insights := buildCompleteInsights env.parseJson msg false
              (genRoundIds store userId) env.now,
            insightsId := env.insertResult,
            analyzedRounds := genRoundIds store userId,
            timestamp := env.now,
            productAccess := none } ∧
    (∀ pj, env.parseJson (extractJsonCandidate msg) = some pj →
      buildCompleteInsights env.parseJson msg false (genRoundIds store userId) env.now =
        conversionFormat pj.cards (genRoundIds store userId) env.now ∧
      insightsTiered (conversionFormat pj.cards (genRoundIds store userId) env.now) =
        (pj.cards.getD []).map convCardOf) ∧
    (∀ c : Card,
      ((convCardOf c).usePremiumButton = true ∧
        (convCardOf c).productId = some "product_a" ∧
        (convCardOf c).ctaText ≠ none) ↔ c.type = "premium-feature") := by
  obtain ⟨a, t, hft⟩ := List.exists_cons_of_ne_nil hne
  have hem : (fetchedRounds store.rounds userId).isEmpty = false := by
    rw [List.isEmpty_eq_false]
    exact hne
  refine ⟨?_, ?_, ?_, ?_, ?_, ?_⟩
  · rw [runHandler]
    simp only [hk1, hk2, hk3, hu, hrf, hsf, hco, hem, hperm, Bool.false_eq_true,
      if_false]
    cases hins : env.insertResult with
    | none => simp [genProcessed, genRoundIds]
    | some i => simp [genProcessed, genRoundIds]
  · simp [genProcessed, hft]
  · intro pr hpr r hrc
    have hmax := fetchedRounds_head_ge store.rounds userId r hrc
    rw [hft] at hmax
    rw [genProcessed, hft] at hpr
    simp only [List.map_cons, List.take_succ_cons, List.take_zero,
      List.mem_singleton] at hpr
    rw [hpr]
    exact hmax
  · rw [runHandler]
    simp only [hk1, hk2, hk3, hu, hrf, hsf, hco, hem, hperm, Bool.false_eq_true,
      if_false]
    cases hins : env.insertResult with
    | none => simp [genRoundIds]
    | some i => simp [genRoundIds]
  · intro pj hpj
    constructor
    · rw [buildCompleteInsights, hpj]
      simp
    · simp [conversionFormat, insightsTiered]
  · intro c
    by_cases hc : c.type = "premium-feature" <;> simp [convCardOf, hc]

/-- C6 (witness): on the concrete non-entitled store the request carries one
round and the 4000-token budget, and the teaser card gets the affordances
while the summary card does not. -/
theorem handler_non_entitled_limits_witness :
    (runHandler exGenEnv exGStore).request =
      some ⟨"claude-sonnet-4-20250514", 4000, false,
        ⟨(genProcessed exGStore "u1").take 1,
          ((genProcessed exGStore "u1").take 1).length, true⟩⟩ ∧
    ((genProcessed exGStore "u1").take 1).length = 1 ∧
    ((convCardOf exCardTeaser).usePremiumButton = true ∧
      (convCardOf exCardTeaser).productId = some "product_a" ∧
      (convCardOf exCardTeaser).ctaText ≠ none) ∧
    ¬((convCardOf exCardSummary).usePremiumButton = true ∧
      (convCardOf exCardSummary).productId = some "product_a" ∧
      (convCardOf exCardSummary).ctaText ≠ none) := by
  have h := handler_non_entitled_limits exGenEnv exGStore "u1" "RAW"
    rfl rfl rfl (by decide) rfl rfl (by decide) rfl rfl
  refine ⟨h.1, h.2.1, (h.2.2.2.2.2 exCardTeaser).mpr rfl, ?_⟩
  intro haff
  have := (h.2.2.2.2.2 exCardSummary).mp haff
  exact absurd this (by decide)

/-- C10: for a non-entitled invocation with more than one completed round,
the stored/returned insight payload's `analyzedRounds` is the single most
recent round id (`roundIds.slice(0, 1)`), while the response's top-level
`analyzedRounds` lists all fetched round ids — the two fields disagree. -/
theorem handler_analyzedRounds_mismatch (env : GenEnv) (store : GStore)
    (userId msg : String) (pj : ParsedInsights) (iid : String)
    (hk1 : env.claudeKeyPresent = true)
    (hk2 : env.supabaseUrlPresent = true)
    (hk3 : env.serviceRoleKeyPresent = true)
    (hu : jsTruthyStr (resolveUserId env) = some userId)
    (hperm : computeHasProductA env.permsFails store.user_permissions userId = false)
    (hrf : env.roundsFails = false)
    (hlen : 1 < (fetchedRounds store.rounds userId).length)
    (hsf : env.shotsFails = false)
    (hco : env.claudeOutcome = .ok msg)
    (hpj : env.parseJson (extractJsonCandidate msg) = some pj)
    (hins : env.insertResult = some iid) :
    respInsights (runHandler env store).resp =
      some (conversionFormat pj.cards (genRoundIds store userId) env.now) ∧
    insightsAnalyzed (conversionFormat pj.cards (genRoundIds store userId) env.now) =
      (genRoundIds store userId).take 1 ∧
    respAnalyzed (runHandler env store).resp = some (genRoundIds store userId) ∧
    (genRoundIds store userId).take 1 ≠ genRoundIds store userId ∧
    (∀ r ∈ completedRoundsOf store.rounds userId,
      r.created_at ≤ headCreated (fetchedRounds store.rounds userId)) ∧
    (runHandler env store).store.insights =
      store.insights ++ [⟨iid, userId, jsTruthyStr env.bodyRoundId,
        conversionFormat pj.cards (genRoundIds store userId) env.now, env.now⟩] := by
  have hne : fetchedRounds store.rounds userId ≠ [] := by
    intro hc
    rw [hc] at hlen
    simp at hlen
  have hem : (fetchedRounds store.rounds userId).isEmpty = false := by
    rw [List.isEmpty_eq_false]
    exact hne
  have hbuild : buildCompleteInsights env.parseJson msg false
      ((fetchedRounds store.rounds userId).map (fun r => r.id)) env.now =
      conversionFormat pj.cards
        ((fetchedRounds store.rounds userId).map (fun r => r.id)) env.now := by
    rw [buildCompleteInsights, hpj]
    simp
  refine ⟨?_, ?_, ?_, ?_, ?_, ?_⟩
  · rw [runHandler]
    simp only [hk1, hk2, hk3, hu, hrf, hsf, hco, hem, hperm, hins,
      Bool.false_eq_true, if_false]
    simp [respInsights, genRoundIds, hbuild, genProcessed]
  · simp [conversionFormat, insightsAnalyzed]
  · rw [runHandler]
    simp only [hk1, hk2, hk3, hu, hrf, hsf, hco, hem, hperm, hins,
      Bool.false_eq_true, if_false]
    simp [respAnalyzed, genRoundIds]
  · intro hcq
    have hlen2 := congrArg List.length hcq
    rw [List.length_take] at hlen2
    have hlen3 : (genRoundIds store userId).length =
        (fetchedRounds store.rounds userId).length := by
      simp [genRoundIds]
    omega
  · exact fetchedRounds_head_ge store.rounds userId
  · rw [runHandler]
    simp only [hk1, hk2, hk3, hu, hrf, hsf, hco, hem, hperm, hins,
      Bool.false_eq_true, if_false]
    simp [genRoundIds, hbuild]

/-- C10 (witness): with two completed rounds, the payload lists only the most
recent round id while the response lists both, so the fields differ. -/
theorem handler_analyzedRounds_mismatch_witness :
    insightsAnalyzed (conversionFormat (some [exCardSummary, exCardTeaser])
        (genRoundIds exGStore "u1") exGenEnv.now) =
      (genRoundIds exGStore "u1").take 1 ∧
    respAnalyzed (runHandler exGenEnv exGStore).resp =
      some (genRoundIds exGStore "u1") ∧
    (genRoundIds exGStore "u1").take 1 ≠ genRoundIds exGStore "u1" := by
  have h := handler_analyzedRounds_mismatch exGenEnv exGStore "u1" "RAW"
    ⟨some [exCardSummary, exCardTeaser]⟩ "ins-1"
    rfl rfl rfl (by decide) rfl rfl (by decide) rfl rfl (by decide) rfl
  exact ⟨h.2.1, h.2.2.1, h.2.2.2.1⟩

end ClaimTheoremsGenerator3
